import Mathlib

/-!
Verification development for the deinfluencer-analyzer repository.

The repository ships a Next.js frontend (under `frontend/src`); the profile
acquisition and scoring backend is described by the specification but its
code is not part of the source tree, so those components are modelled from
the specification (each such definition is marked `Modelled from the spec:`).

Frontend functions embedded from the source:
  * `validateUsername` and `handleSubmit` from `components/SearchSection.tsx`
  * `formatFollowerRatio` from `components/AnalysisResults.tsx`
JavaScript strings are modelled as Lean `String` / `List Char`; number
formatting (`toFixed(1)`, `Math.round`) is modelled over `ℚ`.
-/

/-- JavaScript `String.prototype.trim` modelled on character lists:
drop whitespace from both ends. -/
def jsTrim (l : List Char) : List Char :=
  ((l.dropWhile Char.isWhitespace).reverse.dropWhile Char.isWhitespace).reverse

/-- String-level wrapper of `jsTrim`; models `username.trim()`. -/
def jsTrimS (s : String) : String :=
  String.mk (jsTrim s.toList)

/-- ASCII lower-casing of a single character, as JavaScript `toLowerCase`
acts on the ASCII range. -/
def jsToLower (c : Char) : Char :=
  Char.toLower c

/-- The character class `[a-zA-Z0-9._]` from `validateUsername`. -/
def validChar (c : Char) : Bool :=
  c.isAlpha || c.isDigit || c == '.' || c == '_'

/-- Gibberish pattern `^[a-z]\x7b1,2\x7d$` (case-insensitive): one or two letters. -/
def patShortAlpha (t : List Char) : Bool :=
  decide (t.length ≤ 2) && !t.isEmpty && t.all Char.isAlpha

/-- Gibberish pattern `^\d+$`: only digits. -/
def patAllDigits (t : List Char) : Bool :=
  !t.isEmpty && t.all Char.isDigit

/-- Gibberish pattern `^[._]+$`: only dots and underscores. -/
def patDotsUnders (t : List Char) : Bool :=
  !t.isEmpty && t.all (fun c => c == '.' || c == '_')

/-- Gibberish pattern `^(test|user|admin)\d*$` (case-insensitive). -/
def patKnownWord (t : List Char) : Bool :=
  let l := t.map jsToLower
  (l.take 4 == ['t', 'e', 's', 't'] && (l.drop 4).all Char.isDigit) ||
  (l.take 4 == ['u', 's', 'e', 'r'] && (l.drop 4).all Char.isDigit) ||
  (l.take 5 == ['a', 'd', 'm', 'i', 'n'] && (l.drop 5).all Char.isDigit)

/-- Gibberish pattern `^[qwerty]+$` (case-insensitive): characters drawn from
the class q,w,e,r,t,y. -/
def patQwertyClass (t : List Char) : Bool :=
  !t.isEmpty && t.all (fun c => ['q', 'w', 'e', 'r', 't', 'y'].contains (jsToLower c))

/-- Gibberish pattern `^[asdf]+$` (case-insensitive): characters drawn from
the class a,s,d,f. -/
def patAsdfClass (t : List Char) : Bool :=
  !t.isEmpty && t.all (fun c => ['a', 's', 'd', 'f'].contains (jsToLower c))

/-- Disjunction of the six `gibberishPatterns` of `validateUsername`. -/
def gibberishMatch (t : List Char) : Bool :=
  patShortAlpha t || patAllDigits t || patDotsUnders t ||
  patKnownWord t || patQwertyClass t || patAsdfClass t

/-- Boolean list-prefix test, modelling the start of a substring match. -/
def listPrefixB : List Char → List Char → Bool
  | [], _ => true
  | _ :: _, [] => false
  | a :: as, b :: bs => a == b && listPrefixB as bs

/-- Boolean list-infix test, modelling JavaScript `String.prototype.includes`. -/
def listInfixB (pat : List Char) : List Char → Bool
  | [] => pat.isEmpty
  | b :: bs => listPrefixB pat (b :: bs) || listInfixB pat bs

/-- The `commonGibberish` substring check of `validateUsername`: the
lower-cased username contains one of the four listed sequences. -/
def commonGibberishHit (t : List Char) : Bool :=
  let l := t.map jsToLower
  listInfixB ['a', 's', 'd', 'f', 'g', 'h'] l ||
  listInfixB ['q', 'w', 'e', 'r', 't', 'y'] l ||
  listInfixB ['z', 'x', 'c', 'v', 'b', 'n'] l ||
  listInfixB ['1', '2', '3', '4', '5', '6'] l

/-- The must-contain-a-letter check `[a-zA-Z]` of `validateUsername`. -/
def hasLetter (t : List Char) : Bool :=
  t.any Char.isAlpha

/-- The `new Set(lowercased).size === 1` check of `validateUsername`:
true iff the list is nonempty and all characters coincide (case-insensitively). -/
def allSameChar (t : List Char) : Bool :=
  match t.map jsToLower with
  | [] => false
  | c :: rest => rest.all (fun d => d == c)

/-- `validateUsername` from `components/SearchSection.tsx` (lines 32-88):
returns `some errorMessage` when validation fails and `none` when the
username is accepted. The checks appear in source order. -/
def validateUsername (username : String) : Option String :=
  let t := jsTrim username.toList
  if t.length = 0 then some "Username is required"
  else if t.length < 2 then some "Username must be at least 2 characters long"
  else if 30 < t.length then some "Username must be less than 30 characters"
  else if !(t.all validChar) then
    some "Username can only contain letters, numbers, dots, and underscores"
  else if gibberishMatch t then some "Please enter a valid influencer username"
  else if commonGibberishHit t then some "Please enter a valid influencer username"
  else if !(hasLetter t) then some "Username must contain at least one letter"
  else if allSameChar t then some "Please enter a valid influencer username"
  else none

/-- `handleSubmit` from `components/SearchSection.tsx` (lines 103-114),
abstracted over the React event machinery: returns the `(username, platform)`
argument passed to `onAnalyze`, or `none` when validation failed and the
handler returned without issuing an analyze request. The submitted username
is `username.trim()`. -/
def handleSubmit (username platform : String) : Option (String × String) :=
  match validateUsername username with
  | some _ => none
  | none => some (jsTrimS username, platform)

/-- JavaScript `Number.prototype.toFixed(1)` modelled over `ℚ`: round to one
decimal digit and render `intPart.decimalDigit` (inputs here are nonnegative). -/
def toFixed1 (q : ℚ) : String :=
  let n : ℤ := round (10 * q)
  toString (n / 10) ++ "." ++ toString (n % 10)

/-- `formatFollowerRatio` from `components/AnalysisResults.tsx` (lines 35-52):
`following = 0` short-circuits to the infinity symbol before any division;
otherwise the ratio is rendered in M:1, K:1, rounded :1, or one-decimal :1
form depending on magnitude. -/
def formatFollowerRatio (followers following : ℕ) : String :=
  if following = 0 then "∞"
  else
    let ratio : ℚ := (followers : ℚ) / (following : ℚ)
    if 1000000 ≤ ratio then toFixed1 (ratio / 1000000) ++ "M:1"
    else if 1000 ≤ ratio then toFixed1 (ratio / 1000) ++ "K:1"
    else if 100 ≤ ratio then toString (round ratio) ++ ":1"
    else toFixed1 ratio ++ ":1"

/-- Modelled from the spec: §3 handle normalization (the backend that owns
cache keys is not in the source tree). A handle is lowercased, trimmed, and
any leading at-sign is stripped before use as any key. -/
def normalizeHandle (h : String) : String :=
  let l := (jsTrim h.toList).map jsToLower
  String.mk (match l with
    | '@' :: rest => rest
    | other => other)

/-- Modelled from the spec: §3 PlatformIdentifier, the normalized unit of
acquisition and caching. -/
structure PlatformIdentifier where
  platform : String
  handle : String
deriving DecidableEq, Repr

/-- Modelled from the spec: the cache key of an identifier — platform paired
with the normalized handle; two identifiers are equal as keys iff platform
and normalized handle match. -/
def idKey (platform handle : String) : String × String :=
  (platform, normalizeHandle handle)

/-- Modelled from the spec: §3 provenance label carried from acquisition to
the response. -/
inductive ConfidenceTier where
  | authoritative
  | scraped
  | curated
  | synthetic
deriving DecidableEq, Repr

/-- Modelled from the spec: §4.2 strategy-local failure kinds. -/
inductive FailKind where
  | notFound
  | unavailable
  | rateLimited
  | fetchTimeout
deriving DecidableEq, Repr

/-- Modelled from the spec: §3 RawAcquisitionResult. The opaque payload is
modelled as the optional numeric fields a source may or may not supply. -/
structure RawAcquisitionResult where
  strategy_id : String
  platform : String
  handle : String
  follower_count : Option ℕ
  following_count : Option ℕ
  post_count : Option ℕ
  engagement_bp : Option ℕ
  confidence_tier : ConfidenceTier
  fetched_at : ℕ
deriving DecidableEq, Repr

/-- Modelled from the spec: §3 one recent-post sample of a CanonicalProfile. -/
structure PostSample where
  likes : ℕ
  comments : ℕ
  is_sponsored : Bool
  timestamp : ℕ
deriving DecidableEq, Repr

/-- Modelled from the spec: §3 CanonicalProfile (engagement rate as `ℚ`). -/
structure CanonicalProfile where
  username : String
  platform : String
  display_name : String
  bio : String
  follower_count : ℕ
  following_count : ℕ
  post_count : ℕ
  verified : Bool
  avg_engagement_rate : ℚ
  recent_post_samples : List PostSample
  confidence_tier : ConfidenceTier
deriving DecidableEq, Repr

/-- Modelled from the spec: §4.5 Normalizer — maps a RawAcquisitionResult to
the canonical schema, filling source-missing numeric fields with the
documented default (zero) so the Scoring Engine never sees absent fields. -/
def normalizeProfile (r : RawAcquisitionResult) : CanonicalProfile :=
  ⟨r.handle, r.platform, r.handle, "",
   r.follower_count.getD 0, r.following_count.getD 0, r.post_count.getD 0,
   false, (r.engagement_bp.getD 0 : ℚ) / 10000, [], r.confidence_tier⟩

/-- Modelled from the spec: §4.2/§9 seed derived from the handle string for
the synthetic generator (a deterministic fold over the characters). -/
def handleSeed (h : String) : ℕ :=
  h.toList.foldl (fun a c => (a * 131 + c.toNat) % 1000000007) 7

/-- Modelled from the spec: one step of the seeded pseudo-random generator
keyed by the handle (a linear congruential step). -/
def lcgNext (s : ℕ) : ℕ :=
  (1103515245 * s + 12345) % 2147483648

/-- Modelled from the spec: §4.2 the synthetic-generation strategy's result —
a deterministic function of the normalized handle, tagged
`confidence_tier = synthetic`; only `fetched_at` depends on the call time. -/
def syntheticRaw (id : PlatformIdentifier) (now : ℕ) : RawAcquisitionResult :=
  let s0 := handleSeed id.handle
  let s1 := lcgNext s0
  let s2 := lcgNext s1
  let s3 := lcgNext s2
  let s4 := lcgNext s3
  ⟨"synthetic", id.platform, id.handle,
   some (s1 % 1000000), some (s2 % 5000), some (s3 % 3000), some (s4 % 800),
   ConfidenceTier.synthetic, now⟩

/-- Modelled from the spec: §4.2 one pluggable acquisition strategy: an
identifier and a call time either produce a RawAcquisitionResult or fail
with a strategy-local failure kind. -/
structure Strategy where
  sid : String
  fetch : PlatformIdentifier → ℕ → Except FailKind RawAcquisitionResult

/-- Modelled from the spec: §4.3 the Orchestrator's `Resolve` — walk the
non-synthetic strategies in priority order, skipping any the rate tracker
disallows, stopping at the first success; when every one fails or is
skipped, the synthetic strategy (which cannot fail) supplies the result. -/
def Resolve (allow : String → Bool) (strats : List Strategy)
    (id : PlatformIdentifier) (now : ℕ) : RawAcquisitionResult :=
  match strats with
  | [] => syntheticRaw id now
  | s :: rest =>
    if allow s.sid then
      match s.fetch id now with
      | Except.ok r => r
      | Except.error _ => Resolve allow rest id now
    else Resolve allow rest id now

/-- Modelled from the spec: clamp of a raw heuristic value to the score
interval [0,10] (§4.6: each sub-score is clamped to [0,10]). -/
def clampScore (q : ℚ) : ℚ :=
  max 0 (min 10 q)

/-- Arithmetic mean of a list of rationals (0 for the empty list). -/
def listMean (l : List ℚ) : ℚ :=
  if l.length = 0 then 0 else l.sum / l.length

/-- Population variance of a list of rationals (0 for the empty list). -/
def listVariance (l : List ℚ) : ℚ :=
  listMean (l.map (fun x => (x - listMean l) ^ 2))

/-- Modelled from the spec: §4.6 expected engagement band — higher follower
counts are expected to show proportionally lower raw engagement. -/
def expectedEngagementRate (fc : ℕ) : ℚ :=
  if fc < 10000 then 8 / 100
  else if fc < 100000 then 4 / 100
  else if fc < 1000000 then 2 / 100
  else 1 / 100

/-- Modelled from the spec: §4.6 `engagement_quality` — penalizes engagement
far outside the expected band in either direction, clamped to [0,10]. -/
def engagementQuality (p : CanonicalProfile) : ℚ :=
  clampScore (10 - 100 * |p.avg_engagement_rate - expectedEngagementRate p.follower_count|)

/-- Likes-to-comments ratios of the recent post samples (denominator shifted
by one as the documented bounded estimate against empty comment counts). -/
def sampleRatios (samples : List PostSample) : List ℚ :=
  samples.map (fun s => (s.likes : ℚ) / ((s.comments : ℚ) + 1))

/-- Modelled from the spec: §4.6 `content_authenticity` — high variance of
the engagement ratios, or repeated near-identical (bot-like) numbers, lowers
the score; clamped to [0,10]. -/
def contentAuthenticity (p : CanonicalProfile) : ℚ :=
  let v := listVariance (sampleRatios p.recent_post_samples)
  clampScore (if v < 1 / 100 then 4 else 10 - v / 10)

/-- Modelled from the spec: §4.6 `follower_authenticity` — derived from the
follower/following ratio (denominator shifted by one) and follower-count
magnitude; pathological ratios lower the score; clamped to [0,10]. -/
def followerAuthenticity (p : CanonicalProfile) : ℚ :=
  let ratio := (p.follower_count : ℚ) / ((p.following_count : ℚ) + 1)
  clampScore (if ratio < 1 then 3 else if ratio ≤ 1000 then 8 else 10 - ratio / 100000)

/-- Fraction of the recent post samples marked sponsored (0 when empty). -/
def sponsoredFraction (samples : List PostSample) : ℚ :=
  if samples.length = 0 then 0
  else ((samples.filter (fun s => s.is_sponsored)).length : ℚ) / (samples.length : ℚ)

/-- Modelled from the spec: §4.6 `sponsored_ratio` — moderate sponsored
fractions score higher than either extreme; clamped to [0,10]. -/
def sponsoredRatioScore (p : CanonicalProfile) : ℚ :=
  clampScore (10 - 20 * |sponsoredFraction p.recent_post_samples - 3 / 10|)

/-- Gaps between consecutive sample timestamps, as rationals. -/
def timestampGaps : List ℕ → List ℚ
  | [] => []
  | [_] => []
  | a :: b :: rest => ((b : ℚ) - (a : ℚ)) :: timestampGaps (b :: rest)

/-- Modelled from the spec: §4.6 `consistency_score` — regular posting
cadence (low gap variance) scores higher than bursty or sparse cadence;
clamped to [0,10]. -/
def consistencyScore (p : CanonicalProfile) : ℚ :=
  let v := listVariance (timestampGaps (p.recent_post_samples.map (fun s => s.timestamp)))
  clampScore (10 - v / 100)

/-- Modelled from the spec: §3 AuthenticityScore record. -/
structure AuthenticityScore where
  overall_score : ℚ
  engagement_quality : ℚ
  content_authenticity : ℚ
  follower_authenticity : ℚ
  sponsored_ratio : ℚ
  consistency_score : ℚ
deriving DecidableEq, Repr

/-- Modelled from the spec: documented configuration weight of `engagement_quality`. -/
def wEngagement : ℚ := 1 / 4

/-- Modelled from the spec: documented configuration weight of `content_authenticity`. -/
def wContent : ℚ := 1 / 5

/-- Modelled from the spec: documented configuration weight of `follower_authenticity`. -/
def wFollower : ℚ := 1 / 4

/-- Modelled from the spec: documented configuration weight of `sponsored_ratio`. -/
def wSponsored : ℚ := 1 / 10

/-- Modelled from the spec: documented configuration weight of `consistency_score`. -/
def wConsistency : ℚ := 1 / 5

/-- Rounding to one decimal place over `ℚ`. -/
def roundTo1 (q : ℚ) : ℚ :=
  (round (10 * q) : ℤ) / 10

/-- Modelled from the spec: §4.6 the fixed-weight sum of the five sub-scores
of a profile. -/
def weightedTotal (p : CanonicalProfile) : ℚ :=
  wEngagement * engagementQuality p + wContent * contentAuthenticity p +
  wFollower * followerAuthenticity p + wSponsored * sponsoredRatioScore p +
  wConsistency * consistencyScore p

/-- Modelled from the spec: §4.6 the pure Scoring Engine `Score(profile)`:
the five clamped sub-scores, and `overall_score` as their fixed-weight sum
rounded to one decimal and clamped to [0,10]. -/
def Score (p : CanonicalProfile) : AuthenticityScore :=
  ⟨clampScore (roundTo1 (weightedTotal p)),
   engagementQuality p, contentAuthenticity p, followerAuthenticity p,
   sponsoredRatioScore p, consistencyScore p⟩

/-- Modelled from the spec: §4.7 rule-based insight strings derived from
sub-score thresholds (ordered, deduplicated; empty list valid). -/
def generateInsights (sc : AuthenticityScore) : List String :=
  ((if sc.sponsored_ratio < 3 then ["Low sponsored content - primarily organic."] else []) ++
   (if sc.follower_authenticity < 5 then ["Follower base shows signs of inauthentic growth."] else []) ++
   (if sc.engagement_quality < 5 then ["Engagement is far outside the expected band."] else [])).dedup

/-- Modelled from the spec: §4.7 rule-based recommendation strings. -/
def generateRecommendations (sc : AuthenticityScore) : List String :=
  ((if sc.overall_score < 5 then ["Exercise caution before trusting recommendations."] else []) ++
   (if sc.consistency_score < 5 then ["Posting cadence is irregular; review recent activity."] else [])).dedup

/-- Modelled from the spec: §6 AnalyzeRequest. -/
structure AnalyzeRequest where
  handle : String
  platform : String
deriving DecidableEq, Repr

/-- Modelled from the spec: §6 AnalyzeResponse. -/
structure AnalyzeResponse where
  profile : CanonicalProfile
  authenticity_score : AuthenticityScore
  insights : List String
  recommendations : List String
deriving DecidableEq, Repr

/-- Modelled from the spec: §7 the only failure mode surfaced to a caller is
an input-validation failure. -/
inductive AnalyzeError where
  | invalidInput
deriving DecidableEq, Repr

/-- The platform values offered by the frontend dropdown. -/
def validPlatforms : List String :=
  ["instagram", "twitter", "tiktok", "youtube", "facebook", "linkedin"]

/-- Modelled from the spec: §4.3/§7 syntactic validity of a request — a
nonempty normalized handle on a supported platform. -/
def isValidRequest (req : AnalyzeRequest) : Bool :=
  !(normalizeHandle req.handle).isEmpty && validPlatforms.contains req.platform

/-- Modelled from the spec: §2/§6 `Analyze` — validation, then acquisition
through the Orchestrator, normalization, scoring and insight generation;
validation failure is rejected before any strategy runs. -/
def Analyze (allow : String → Bool) (strats : List Strategy)
    (req : AnalyzeRequest) (now : ℕ) : Except AnalyzeError AnalyzeResponse :=
  if isValidRequest req then
    let id : PlatformIdentifier := ⟨req.platform, normalizeHandle req.handle⟩
    let profile := normalizeProfile (Resolve allow strats id now)
    let sc := Score profile
    Except.ok ⟨profile, sc, generateInsights sc, generateRecommendations sc⟩
  else Except.error AnalyzeError.invalidInput

/-- Modelled from the spec: §3 CacheEntry — a stored bundle with its insert
time and time-to-live (the bundle type is abstract). -/
structure CacheEntry (β : Type) where
  bundle : β
  inserted_at : ℕ
  ttl : ℕ
deriving DecidableEq, Repr

/-- Modelled from the spec: §3 servability of a cache entry at a time. -/
def servable {β : Type} (e : CacheEntry β) (now : ℕ) : Bool :=
  decide (now < e.inserted_at + e.ttl)

/-- Modelled from the spec: §4.4 `GetOrResolve` (sequential view): serve a
fresh entry without resolving; on a miss or an expired entry run a fresh
resolution and store it with the configured TTL. Returns the bundle, whether
a resolution (strategy run) was triggered, and the resulting cache entry. -/
def getOrResolve {β : Type} (resolve : ℕ → β) (c : Option (CacheEntry β))
    (now ttl : ℕ) : β × Bool × CacheEntry β :=
  match c with
  | some e =>
    if now < e.inserted_at + e.ttl then (e.bundle, false, e)
    else (resolve now, true, ⟨resolve now, now, ttl⟩)
  | none => (resolve now, true, ⟨resolve now, now, ttl⟩)

/-- Modelled from the spec: §4.4/§5 the single-flight machine's state for one
cache key: the cached result, whether a resolution is in flight, how many
resolutions were ever started, how many callers wait on the in-flight one,
how many callers have not yet been processed, and the results delivered. -/
structure SFState (α : Type) where
  cached : Option α
  running : Bool
  runs : ℕ
  waiting : ℕ
  pending : ℕ
  delivered : List α
deriving Repr

/-- Modelled from the spec: §4.4 initial state — an empty cache, no
resolution in flight, and `n` concurrent callers about to arrive. -/
def sfInit (α : Type) (n : ℕ) : SFState α :=
  ⟨none, false, 0, 0, n, []⟩

/-- Modelled from the spec: §4.4 atomic transitions of the single-flight
cache for one key, with `v` the (deterministic) result the Orchestrator run
produces. A caller that finds a cached result takes it; a caller that finds
no result and no in-flight run starts one; a caller that finds a run in
flight waits on it; a completing run caches `v` and delivers it to every
waiter. -/
inductive SFStep {α : Type} (v : α) : SFState α → SFState α → Prop where
  | hitCache (s : SFState α) (r : α) (hp : 0 < s.pending) (hc : s.cached = some r) :
      SFStep v s ⟨s.cached, s.running, s.runs, s.waiting, s.pending - 1, r :: s.delivered⟩
  | startRun (s : SFState α) (hp : 0 < s.pending) (hc : s.cached = none)
      (hr : s.running = false) :
      SFStep v s ⟨none, true, s.runs + 1, s.waiting + 1, s.pending - 1, s.delivered⟩
  | joinRun (s : SFState α) (hp : 0 < s.pending) (hc : s.cached = none)
      (hr : s.running = true) :
      SFStep v s ⟨none, true, s.runs, s.waiting + 1, s.pending - 1, s.delivered⟩
  | complete (s : SFState α) (hr : s.running = true) :
      SFStep v s ⟨some v, false, s.runs, 0, s.pending,
        List.replicate s.waiting v ++ s.delivered⟩

/-- The inductive invariant of the single-flight machine: at most one run is
ever started; a cached value and every delivered value is the run's result;
a running state has exactly the one run and no cached value yet; before any
run, nothing is cached, running, or delivered; after the one run finishes,
the result is cached. -/
def SFInv {α : Type} (v : α) (s : SFState α) : Prop :=
  s.runs ≤ 1 ∧
  (∀ r, s.cached = some r → r = v) ∧
  (∀ r ∈ s.delivered, r = v) ∧
  (s.running = true → s.runs = 1 ∧ s.cached = none) ∧
  (s.runs = 0 → s.cached = none ∧ s.running = false ∧ s.delivered = []) ∧
  (s.runs = 1 → s.running = false → s.cached = some v)

theorem clampScore_nonneg (q : ℚ) : 0 ≤ clampScore q :=
  le_max_left 0 _

theorem clampScore_le_ten (q : ℚ) : clampScore q ≤ 10 :=
  max_le (by norm_num) (min_le_left 10 q)

theorem clampScore_eq_self {q : ℚ} (h0 : 0 ≤ q) (h10 : q ≤ 10) : clampScore q = q := by
  unfold clampScore
  rw [min_eq_right h10, max_eq_right h0]

theorem mem_dropWhile_of_mem {p : Char → Bool} {c : Char} :
    ∀ {l : List Char}, c ∈ l → p c = false → c ∈ l.dropWhile p := by
  intro l
  induction l with
  | nil => intro h _; cases h
  | cons a as ih =>
    intro hm hc
    rw [List.dropWhile_cons]
    by_cases ha : p a = true
    · rcases List.mem_cons.mp hm with h | h
      · subst h; rw [ha] at hc; cases hc
      · simp only [ha, if_true]; exact ih h hc
    · simp only [Bool.not_eq_true] at ha
      simp only [ha, Bool.false_eq_true, if_false]
      exact hm

theorem mem_jsTrim {c : Char} {l : List Char} (hm : c ∈ l)
    (hc : c.isWhitespace = false) : c ∈ jsTrim l := by
  unfold jsTrim
  rw [List.mem_reverse]
  apply mem_dropWhile_of_mem _ hc
  rw [List.mem_reverse]
  exact mem_dropWhile_of_mem hm hc

theorem validateUsername_ne_none_of_at_mem_trim {u : String}
    (hm : '@' ∈ jsTrim u.toList) : validateUsername u ≠ none := by
  simp only [validateUsername]
  split_ifs with h1 h2 h3 h4 h5 h6 h7 h8
  all_goals simp
  exfalso
  have hall : (jsTrim u.toList).all validChar = true := by simpa using h4
  have := List.all_eq_true.mp hall '@' hm
  simp [validChar] at this

theorem validateUsername_ne_none_of_at_mem {u : String}
    (hm : '@' ∈ u.toList) : validateUsername u ≠ none :=
  validateUsername_ne_none_of_at_mem_trim (mem_jsTrim hm (by decide))

theorem Resolve_eq_synthetic {allow : String → Bool} {strats : List Strategy}
    (h : ∀ s ∈ strats, ∀ i n, ∃ k, s.fetch i n = Except.error k)
    (id : PlatformIdentifier) (now : ℕ) :
    Resolve allow strats id now = syntheticRaw id now := by
  induction strats with
  | nil => rfl
  | cons s rest ih =>
    have hrest : ∀ s' ∈ rest, ∀ i n, ∃ k, s'.fetch i n = Except.error k :=
      fun s' hs' => h s' (List.mem_cons_of_mem s hs')
    by_cases ha : allow s.sid = true
    · obtain ⟨k, hk⟩ := h s (List.mem_cons_self s rest) id now
      simp [Resolve, ha, hk, ih hrest]
    · simp only [Bool.not_eq_true] at ha
      simp [Resolve, ha, ih hrest]

theorem sfInv_init (α : Type) (v : α) (n : ℕ) : SFInv v (sfInit α n) := by
  refine ⟨Nat.zero_le 1, ?_, ?_, ?_, ?_, ?_⟩
  · intro r h; cases h
  · intro r h; cases h
  · intro h; cases h
  · intro _; exact ⟨rfl, rfl, rfl⟩
  · intro h _; cases h

theorem sfInv_step {α : Type} {v : α} {s t : SFState α}
    (hinv : SFInv v s) (hstep : SFStep v s t) : SFInv v t := by
  obtain ⟨h1, h2, h3, h4, h5, h6⟩ := hinv
  cases hstep with
  | hitCache r hp hc =>
    have hrv : r = v := h2 r hc
    subst hrv
    refine ⟨h1, h2, ?_, h4, ?_, h6⟩
    · intro x hx
      rcases List.mem_cons.mp hx with h | h
      · exact h
      · exact h3 x h
    · intro h0
      rw [(h5 h0).1] at hc
      cases hc
  | startRun hp hc hr =>
    have h0 : s.runs = 0 := by
      by_cases hz : s.runs = 0
      · exact hz
      · have hone : s.runs = 1 := le_antisymm h1 (Nat.one_le_iff_ne_zero.mpr hz)
        have := h6 hone hr
        rw [hc] at this
        cases this
    refine ⟨?_, ?_, h3, ?_, ?_, ?_⟩
    · show s.runs + 1 ≤ 1
      omega
    · intro r h; cases h
    · intro _
      refine ⟨?_, rfl⟩
      show s.runs + 1 = 1
      omega
    · intro h
      have h' : s.runs + 1 = 0 := h
      omega
    · intro _ hf; cases hf
  | joinRun hp hc hr =>
    refine ⟨h1, ?_, h3, ?_, ?_, ?_⟩
    · intro r h; cases h
    · intro _; exact ⟨(h4 hr).1, rfl⟩
    · intro h0
      have := (h5 h0).2.1
      rw [this] at hr
      cases hr
    · intro _ hf; cases hf
  | complete hr =>
    obtain ⟨hruns, hcach⟩ := h4 hr
    refine ⟨h1, ?_, ?_, ?_, ?_, ?_⟩
    · intro r h; exact (Option.some.inj h).symm
    · intro x hx
      rcases List.mem_append.mp hx with h | h
      · exact List.eq_of_mem_replicate h
      · exact h3 x h
    · intro hf; cases hf
    · intro h0
      have h0' : s.runs = 0 := h0
      omega
    · intro _ _; rfl

theorem sfInv_reachable {α : Type} {v : α} {n : ℕ} {s : SFState α}
    (h : Relation.ReflTransGen (SFStep v) (sfInit α n) s) : SFInv v s := by
  induction h with
  | refl => exact sfInv_init α v n
  | tail _ hstep ih => exact sfInv_step ih hstep

/-- Claim C7: an empty or structurally invalid handle is rejected by
validation before any acquisition strategy runs and surfaced as a client
error: whenever `validateUsername` returns a non-null error message,
`handleSubmit` returns without calling `onAnalyze`, so no analyze request is
issued; an empty handle always yields such an error; and (spec-modelled
backend) an invalid request makes `Analyze` return the validation error for
every strategy list alike — no strategy can have run. -/
theorem validation_rejects_C7 :
    (∀ u p, validateUsername u ≠ none → handleSubmit u p = none) ∧
    (∀ u, jsTrim u.toList = [] → validateUsername u ≠ none) ∧
    (∀ (allow : String → Bool) (strats₁ strats₂ : List Strategy)
       (req : AnalyzeRequest) (now : ℕ),
      isValidRequest req = false →
      Analyze allow strats₁ req now = Except.error AnalyzeError.invalidInput ∧
      Analyze allow strats₁ req now = Analyze allow strats₂ req now) := by
  refine ⟨?_, ?_, ?_⟩
  · intro u p h
    unfold handleSubmit
    cases hv : validateUsername u with
    | none => exact absurd hv h
    | some e => rfl
  · intro u h hnone
    simp only [validateUsername] at hnone
    rw [h] at hnone
    simp at hnone
  · intro allow s1 s2 req now h
    constructor <;> simp [Analyze, h]

/-- Witness for C7 at the empty handle. -/
theorem validation_rejects_C7_witness :
    handleSubmit "" "instagram" = none :=
  validation_rejects_C7.1 "" "instagram" (by decide)

/-- Claim C8: the spec-modelled key normalization lowercases, trims and
strips a leading at-sign, and identifiers are equal as keys iff platform and
normalized handle match; in the frontend code, a submitted username is only
trimmed (sent verbatim, not lowercased) in the analyze request, and a
leading at-sign is rejected by the character-class validation rather than
stripped. -/
theorem handle_normalization_C8 :
    (normalizeHandle " @MrBeast " = "mrbeast") ∧
    (∀ p₁ h₁ p₂ h₂ : String,
      idKey p₁ h₁ = idKey p₂ h₂ ↔ p₁ = p₂ ∧ normalizeHandle h₁ = normalizeHandle h₂) ∧
    (∀ u p, validateUsername u = none → handleSubmit u p = some (jsTrimS u, p)) ∧
    (handleSubmit "MrBeast" "youtube" = some ("MrBeast", "youtube") ∧
      ("MrBeast" : String) ≠ "mrbeast") ∧
    (∀ u, '@' ∈ u.toList → validateUsername u ≠ none) := by
  refine ⟨by decide, ?_, ?_, ⟨by decide, by decide⟩, ?_⟩
  · intro p₁ h₁ p₂ h₂
    unfold idKey
    exact Prod.ext_iff
  · intro u p h
    simp [handleSubmit, h]
  · intro u hm
    exact validateUsername_ne_none_of_at_mem hm

/-- Witness for C8: an accepted mixed-case username is submitted trimmed and
case-preserved. -/
theorem handle_normalization_C8_witness :
    handleSubmit "TaylorSwift" "instagram" = some (jsTrimS "TaylorSwift", "instagram") :=
  handle_normalization_C8.2.2.1 "TaylorSwift" "instagram" (by decide)

/-- Claim C9: `validateUsername` accepts only usernames whose trimmed form
has length between 2 and 30, consists solely of letters, digits, dots and
underscores, contains a letter, is not a single repeated character, and
matches no gibberish pattern; in particular purely numeric handles, handles
longer than 30 characters, and handles containing an at-sign are rejected. -/
theorem validateUsername_conditions_C9 :
    (∀ u, validateUsername u = none →
      2 ≤ (jsTrim u.toList).length ∧ (jsTrim u.toList).length ≤ 30 ∧
      (jsTrim u.toList).all validChar = true ∧
      hasLetter (jsTrim u.toList) = true ∧
      gibberishMatch (jsTrim u.toList) = false ∧
      commonGibberishHit (jsTrim u.toList) = false ∧
      allSameChar (jsTrim u.toList) = false) ∧
    (∀ u, (jsTrim u.toList).all Char.isDigit = true → validateUsername u ≠ none) ∧
    (∀ u, 30 < (jsTrim u.toList).length → validateUsername u ≠ none) ∧
    (∀ u, '@' ∈ u.toList → validateUsername u ≠ none) := by
  refine ⟨?_, ?_, ?_, ?_⟩
  · intro u h
    simp only [validateUsername] at h
    split_ifs at h with h1 h2 h3 h4 h5 h6 h7 h8
    refine ⟨by omega, by omega, by simpa using h4, by simpa using h7, ?_, ?_, ?_⟩
    · simpa using h5
    · simpa using h6
    · simpa using h8
  · intro u hd hnone
    simp only [validateUsername] at hnone
    split_ifs at hnone with h1 h2 h3 h4 h5 h6 h7 h8
    have hne : jsTrim u.toList ≠ [] := by
      intro he
      apply h1
      rw [he]
      rfl
    have hemp : (jsTrim u.toList).isEmpty = false := by
      cases hl : jsTrim u.toList with
      | nil => exact absurd hl hne
      | cons a as => rfl
    have hpat : patAllDigits (jsTrim u.toList) = true := by
      unfold patAllDigits
      rw [hemp, hd]
      rfl
    refine h5 ?_
    unfold gibberishMatch
    rw [hpat]
    simp
  · intro u hlen hnone
    simp only [validateUsername] at hnone
    split_ifs at hnone
  · intro u hm
    exact validateUsername_ne_none_of_at_mem hm

/-- Witness for C9 at a purely numeric handle. -/
theorem validateUsername_conditions_C9_witness :
    validateUsername "777999" ≠ none :=
  validateUsername_conditions_C9.2.1 "777999" (by decide)

/-- Claim C10: `formatFollowerRatio` is total and never divides by zero —
at `following = 0` it returns the infinity symbol before any division, and
otherwise it returns a finite formatted ratio string (never the infinity
marker, always ending in the `:1` suffix). -/
theorem formatFollowerRatio_total_C10 :
    (∀ f, formatFollowerRatio f 0 = "∞") ∧
    (∀ f g, g ≠ 0 →
      formatFollowerRatio f g ≠ "∞" ∧ ∃ s, formatFollowerRatio f g = s ++ ":1") := by
  constructor
  · intro f
    simp [formatFollowerRatio]
  · intro f g hg
    have hform : ∃ s, formatFollowerRatio f g = s ++ ":1" := by
      simp only [formatFollowerRatio, if_neg hg]
      split_ifs with hM hK hH
      · refine ⟨toFixed1 ((f : ℚ) / (g : ℚ) / 1000000) ++ "M", ?_⟩
        rw [String.append_assoc]
        congr 1
      · refine ⟨toFixed1 ((f : ℚ) / (g : ℚ) / 1000) ++ "K", ?_⟩
        rw [String.append_assoc]
        congr 1
      · exact ⟨toString (round ((f : ℚ) / (g : ℚ))), rfl⟩
      · exact ⟨toFixed1 ((f : ℚ) / (g : ℚ)), rfl⟩
    refine ⟨?_, hform⟩
    obtain ⟨s, hs⟩ := hform
    intro heq
    rw [hs] at heq
    have hlen := congrArg String.length heq
    rw [String.length_append] at hlen
    have hlen' : s.length + 2 = 1 := hlen
    omega

/-- Witness for C10 at a concrete nonzero following count. -/
theorem formatFollowerRatio_total_C10_witness :
    formatFollowerRatio 3 2 ≠ "∞" :=
  (formatFollowerRatio_total_C10.2 3 2 (by decide)).1

/-- Claim C1: for every syntactically valid request, `Analyze` returns a
complete response for any behavior of the rate tracker and the non-synthetic
strategies — the acquisition chain is total, and when every non-synthetic
strategy fails the synthetic strategy supplies the result; no external-source
failure is surfaced to the caller. -/
theorem analyze_total_C1 :
    (∀ (allow : String → Bool) (strats : List Strategy)
       (req : AnalyzeRequest) (now : ℕ),
      isValidRequest req = true →
      ∃ resp, Analyze allow strats req now = Except.ok resp) ∧
    (∀ (allow : String → Bool) (strats : List Strategy)
       (id : PlatformIdentifier) (now : ℕ),
      (∀ s ∈ strats, ∀ i n, ∃ k, s.fetch i n = Except.error k) →
      Resolve allow strats id now = syntheticRaw id now) := by
  constructor
  · intro allow strats req now h
    unfold Analyze
    rw [h]
    exact ⟨_, rfl⟩
  · intro allow strats id now h
    exact Resolve_eq_synthetic h id now

/-- Witness for C1: a valid request with an empty strategy list still
produces a response. -/
theorem analyze_total_C1_witness :
    ∃ resp, Analyze (fun _ => false) [] ⟨"mrbeast", "youtube"⟩ 0 = Except.ok resp :=
  analyze_total_C1.1 (fun _ => false) [] ⟨"mrbeast", "youtube"⟩ 0 (by decide)

/-- Claim C2: in the single-flight machine, from an initial state with `n`
concurrent callers for one key, every reachable state has started at most
one Orchestrator run, every delivered result is the single run's result `v`
(so all callers receive an identical result), and once anything has been
delivered exactly one run was started. -/
theorem single_flight_C2 :
    ∀ (α : Type) (v : α) (n : ℕ) (s : SFState α),
      Relation.ReflTransGen (SFStep v) (sfInit α n) s →
      s.runs ≤ 1 ∧ (∀ r ∈ s.delivered, r = v) ∧ (s.delivered ≠ [] → s.runs = 1) := by
  intro α v n s h
  obtain ⟨h1, h2, h3, h4, h5, h6⟩ := sfInv_reachable h
  refine ⟨h1, h3, ?_⟩
  intro hne
  by_cases hz : s.runs = 0
  · exact absurd (h5 hz).2.2 hne
  · omega

/-- Witness for C2: a concrete trace — one caller starts the run, the run
completes and delivers — reaches a state with exactly one run started. -/
theorem single_flight_C2_witness :
    (⟨some 0, false, 1, 0, 0, [0]⟩ : SFState ℕ).runs = 1 := by
  have h1 : SFStep 0 (sfInit ℕ 1) ⟨none, true, 1, 1, 0, []⟩ :=
    SFStep.startRun (sfInit ℕ 1) Nat.one_pos rfl rfl
  have h2 : SFStep 0 (⟨none, true, 1, 1, 0, []⟩ : SFState ℕ) ⟨some 0, false, 1, 0, 0, [0]⟩ :=
    SFStep.complete _ rfl
  have htr : Relation.ReflTransGen (SFStep 0) (sfInit ℕ 1) ⟨some 0, false, 1, 0, 0, [0]⟩ :=
    Relation.ReflTransGen.tail (Relation.ReflTransGen.tail Relation.ReflTransGen.refl h1) h2
  exact (single_flight_C2 ℕ 0 1 _ htr).2.2 (by simp)

/-- Claim C3: every field of the AuthenticityScore the Scoring Engine
produces — overall and the five sub-scores — lies in the closed interval
[0,10], for every profile. -/
theorem score_bounds_C3 :
    ∀ p : CanonicalProfile,
      (0 ≤ (Score p).overall_score ∧ (Score p).overall_score ≤ 10) ∧
      (0 ≤ (Score p).engagement_quality ∧ (Score p).engagement_quality ≤ 10) ∧
      (0 ≤ (Score p).content_authenticity ∧ (Score p).content_authenticity ≤ 10) ∧
      (0 ≤ (Score p).follower_authenticity ∧ (Score p).follower_authenticity ≤ 10) ∧
      (0 ≤ (Score p).sponsored_ratio ∧ (Score p).sponsored_ratio ≤ 10) ∧
      (0 ≤ (Score p).consistency_score ∧ (Score p).consistency_score ≤ 10) := by
  intro p
  exact ⟨⟨clampScore_nonneg _, clampScore_le_ten _⟩, ⟨clampScore_nonneg _, clampScore_le_ten _⟩,
    ⟨clampScore_nonneg _, clampScore_le_ten _⟩, ⟨clampScore_nonneg _, clampScore_le_ten _⟩,
    ⟨clampScore_nonneg _, clampScore_le_ten _⟩, ⟨clampScore_nonneg _, clampScore_le_ten _⟩⟩

/-- Claim C4: `overall_score` is the documented fixed-weight linear
combination of the five sub-scores (weights summing to 1), rounded to one
decimal and clamped to [0,10]; it differs from the unrounded weighted sum by
at most the rounding tolerance 1/20. -/
theorem overall_weighted_C4 :
    ∀ p : CanonicalProfile,
      (Score p).overall_score = roundTo1 (weightedTotal p) ∧
      |(Score p).overall_score - weightedTotal p| ≤ 1 / 20 ∧
      wEngagement + wContent + wFollower + wSponsored + wConsistency = 1 := by
  intro p
  have he0 : 0 ≤ engagementQuality p := clampScore_nonneg _
  have he1 : engagementQuality p ≤ 10 := clampScore_le_ten _
  have hc0 : 0 ≤ contentAuthenticity p := clampScore_nonneg _
  have hc1 : contentAuthenticity p ≤ 10 := clampScore_le_ten _
  have hf0 : 0 ≤ followerAuthenticity p := clampScore_nonneg _
  have hf1 : followerAuthenticity p ≤ 10 := clampScore_le_ten _
  have hs0 : 0 ≤ sponsoredRatioScore p := clampScore_nonneg _
  have hs1 : sponsoredRatioScore p ≤ 10 := clampScore_le_ten _
  have hn0 : 0 ≤ consistencyScore p := clampScore_nonneg _
  have hn1 : consistencyScore p ≤ 10 := clampScore_le_ten _
  have hw0 : 0 ≤ weightedTotal p := by
    unfold weightedTotal wEngagement wContent wFollower wSponsored wConsistency
    linarith
  have hw1 : weightedTotal p ≤ 10 := by
    unfold weightedTotal wEngagement wContent wFollower wSponsored wConsistency
    linarith
  have hr0 : (0 : ℤ) ≤ round (10 * weightedTotal p) := by
    rw [round_eq]
    exact Int.le_floor.mpr (by push_cast; linarith)
  have hr1 : round (10 * weightedTotal p) ≤ 100 := by
    rw [round_eq]
    have hlt : (10 * weightedTotal p + 1 / 2 : ℚ) < ((101 : ℤ) : ℚ) := by
      push_cast
      linarith
    have := Int.floor_lt.mpr hlt
    omega
  have hrt0 : 0 ≤ roundTo1 (weightedTotal p) := by
    unfold roundTo1
    apply div_nonneg _ (by norm_num)
    exact_mod_cast hr0
  have hrt1 : roundTo1 (weightedTotal p) ≤ 10 := by
    unfold roundTo1
    rw [div_le_iff₀ (by norm_num : (0 : ℚ) < 10)]
    have h100 : ((round (10 * weightedTotal p) : ℤ) : ℚ) ≤ ((100 : ℤ) : ℚ) := by
      exact_mod_cast hr1
    push_cast at h100 ⊢
    linarith
  have hov : (Score p).overall_score = roundTo1 (weightedTotal p) :=
    clampScore_eq_self hrt0 hrt1
  refine ⟨hov, ?_, by norm_num [wEngagement, wContent, wFollower, wSponsored, wConsistency]⟩
  rw [hov]
  have key : roundTo1 (weightedTotal p) - weightedTotal p =
      (((round (10 * weightedTotal p) : ℤ) : ℚ) - 10 * weightedTotal p) / 10 := by
    unfold roundTo1
    ring
  rw [key, abs_div, abs_of_pos (by norm_num : (0 : ℚ) < 10)]
  have habs := abs_sub_round (10 * weightedTotal p)
  have hcomm := abs_sub_comm (((round (10 * weightedTotal p) : ℤ) : ℚ))
    (10 * weightedTotal p)
  rw [div_le_iff₀ (by norm_num : (0 : ℚ) < 10)]
  linarith

/-- Claim C5: a cache entry is servable iff `now < inserted_at + ttl`; while
fresh, `GetOrResolve` serves the cached bundle without invoking any strategy
(the resolution flag is false), and once expired the same call triggers a
fresh resolution (the flag is true and the freshly resolved bundle is stored
with the configured TTL at the current time). -/
theorem cache_ttl_C5 :
    ∀ (β : Type) (resolve : ℕ → β) (e : CacheEntry β) (now ttl : ℕ),
      (servable e now = true ↔ now < e.inserted_at + e.ttl) ∧
      (now < e.inserted_at + e.ttl →
        getOrResolve resolve (some e) now ttl = (e.bundle, false, e)) ∧
      (e.inserted_at + e.ttl ≤ now →
        getOrResolve resolve (some e) now ttl = (resolve now, true, ⟨resolve now, now, ttl⟩)) := by
  intro β resolve e now ttl
  refine ⟨?_, ?_, ?_⟩
  · unfold servable
    exact decide_eq_true_iff
  · intro h
    simp only [getOrResolve]
    rw [if_pos h]
  · intro h
    simp only [getOrResolve]
    rw [if_neg (Nat.not_lt.mpr h)]

/-- Witness for C5: a fresh entry is served without resolving; the same
entry after expiry triggers a fresh resolution. -/
theorem cache_ttl_C5_witness :
    getOrResolve (fun _ => (7 : ℕ)) (some ⟨5, 0, 10⟩) 3 10 = (5, false, ⟨5, 0, 10⟩) :=
  (cache_ttl_C5 ℕ (fun _ => 7) ⟨5, 0, 10⟩ 3 10).2.1 (by norm_num)

/-- Claim C6: two separate `Analyze` calls for the same valid handle, at
different times and with possibly different rate trackers and (all-failing)
strategy lists, both forced through to the synthetic strategy, produce the
identical CanonicalProfile, tagged `confidence_tier = synthetic` — the
synthetic generator is a deterministic (seeded) function of the handle. -/
theorem synthetic_determinism_C6 :
    ∀ (allow₁ allow₂ : String → Bool) (strats₁ strats₂ : List Strategy)
      (req : AnalyzeRequest) (now₁ now₂ : ℕ),
      isValidRequest req = true →
      (∀ s ∈ strats₁, ∀ i n, ∃ k, s.fetch i n = Except.error k) →
      (∀ s ∈ strats₂, ∀ i n, ∃ k, s.fetch i n = Except.error k) →
      ∃ p : CanonicalProfile,
        (Analyze allow₁ strats₁ req now₁).toOption.map AnalyzeResponse.profile = some p ∧
        (Analyze allow₂ strats₂ req now₂).toOption.map AnalyzeResponse.profile = some p ∧
        p.confidence_tier = ConfidenceTier.synthetic := by
  intro a1 a2 s1 s2 req n1 n2 hv hf1 hf2
  refine ⟨normalizeProfile
      (syntheticRaw ⟨req.platform, normalizeHandle req.handle⟩ n1), ?_, ?_, ?_⟩
  · simp [Analyze, hv, Resolve_eq_synthetic hf1, Except.toOption]
  · simp [Analyze, hv, Resolve_eq_synthetic hf2, Except.toOption,
      normalizeProfile, syntheticRaw]
  · simp [normalizeProfile, syntheticRaw]

/-- Witness for C6: with a single always-failing strategy, two calls at
different times yield the same synthetic-tagged profile. -/
theorem synthetic_determinism_C6_witness :
    ∃ p : CanonicalProfile,
      (Analyze (fun _ => true) [⟨"api", fun _ _ => Except.error FailKind.unavailable⟩]
        ⟨"unknownhandle", "instagram"⟩ 1).toOption.map AnalyzeResponse.profile = some p ∧
      (Analyze (fun _ => true) [⟨"api", fun _ _ => Except.error FailKind.unavailable⟩]
        ⟨"unknownhandle", "instagram"⟩ 2).toOption.map AnalyzeResponse.profile = some p ∧
      p.confidence_tier = ConfidenceTier.synthetic :=
  synthetic_determinism_C6 (fun _ => true) (fun _ => true) _ _ _ 1 2 (by decide)
    (by
      intro s hs i n
      simp only [List.mem_singleton] at hs
      subst hs
      exact ⟨FailKind.unavailable, rfl⟩)
    (by
      intro s hs i n
      simp only [List.mem_singleton] at hs
      subst hs
      exact ⟨FailKind.unavailable, rfl⟩)
